import Mathlib

/-!
Verification development for the HET Webflow components
(HETDataTable and HETRateBarChart): a shallow embedding of the
data-shaping pipeline (time-period filtering, aggregate-record
splitting, derived percentage-share fields, demographic sorting,
field-name-driven value formatting and rate annotations), of the
render-state decisions of both components, and of the fetch-effect
event handling.  Numbers are modelled as exact rationals in a small
computable type `Q`; JS string/number conversions (`Number`,
`toFixed(1)`, `Math.round`, `toLocaleString`, `localeCompare`,
`String.prototype.replace`) are embedded as executable functions.
-/

namespace HET

/-- Floor division of an integer by a natural number (the rounding
Math.floor-style division used to embed JS rounding operations). -/
def fdivNat (a : Int) (b : Nat) : Int :=
  match a with
  | .ofNat n => .ofNat (n / b)
  | .negSucc n => .negSucc (n / b)

/-- Exact rational numbers: numerator and positive denominator.  All
constructors below keep values normalized (coprime, positive
denominator), so structural equality is value equality on every number
the embedded code produces. -/
structure Q where
  num : Int
  den : Nat
deriving DecidableEq, Repr

/-- Normalize a fraction with a natural denominator. -/
def qNorm (n : Int) (d : Nat) : Q :=
  if d = 0 then ⟨0, 1⟩
  else
    let g := Nat.gcd n.natAbs d
    ⟨fdivNat n g, d / g⟩

/-- Normalize a fraction with an integer denominator. -/
def qNormI (n d : Int) : Q :=
  if d < 0 then qNorm (-n) (-d).toNat else qNorm n d.toNat

/-- Embed a natural number. -/
def qOfNat (n : Nat) : Q := ⟨(n : Int), 1⟩

/-- The rational zero. -/
def q0 : Q := ⟨0, 1⟩

/-- Multiplication. -/
def qMul (a b : Q) : Q := qNorm (a.num * b.num) (a.den * b.den)

/-- Division (JS division; denominator-zero operands are unreachable in
the guarded code paths). -/
def qDiv (a b : Q) : Q := qNormI (a.num * (b.den : Int)) ((a.den : Int) * b.num)

/-- Strict comparison, by cross multiplication. -/
def qLtB (a b : Q) : Bool := a.num * (b.den : Int) < b.num * (a.den : Int)

/-- floor (s * n / d + 1/2) for natural inputs: the shared kernel of the
JS round-half-up operations. -/
def halfUpNat (n d s : Nat) : Nat := (2 * s * n + d) / (2 * d)

/-- Math.round: floor(q + 1/2), ties toward positive infinity. -/
def jsRound (q : Q) : Int := fdivNat (2 * q.num + (q.den : Int)) (2 * q.den)

/-- Decimal digit character. -/
def digitChar (d : Nat) : Char := Char.ofNat (48 + d)

/-- Insert thousands separators into a digit string, grouping by three
from the right (en-US locale grouping). -/
def commRev (i : Nat) : List Char → List Char
  | [] => []
  | c :: cs =>
    if i % 3 = 0 && i ≠ 0 then ',' :: c :: commRev (i + 1) cs
    else c :: commRev (i + 1) cs

/-- Locale-group a decimal numeral string. -/
def commify (s : String) : String := ⟨(commRev 0 s.data.reverse).reverse⟩

/-- Render the fractional part 0 < fp < 1000 (thousandths) with
trailing zeros removed, as toLocaleString does. -/
def fracThousandths (fp : Nat) : String :=
  let d3 := [digitChar (fp / 100), digitChar (fp / 10 % 10), digitChar (fp % 10)]
  ⟨(d3.reverse.dropWhile (fun c => c = '0')).reverse⟩

/-- Number.prototype.toLocaleString with the en-US defaults: grouped
integer part, at most three fractional digits, half-away-from-zero. -/
def jsToLocaleString (q : Q) : String :=
  let sign := if q.num < 0 then "-" else ""
  let m := halfUpNat q.num.natAbs q.den 1000
  let ip := m / 1000
  let fp := m % 1000
  sign ++ commify (toString ip) ++ (if fp = 0 then "" else "." ++ fracThousandths fp)

/-- Number.prototype.toFixed(1): sign split off, then one decimal digit
rounded half up. -/
def jsToFixed1 (q : Q) : String :=
  let sign := if q.num < 0 then "-" else ""
  let t := halfUpNat q.num.natAbs q.den 10
  sign ++ toString (t / 10) ++ "." ++ toString (t % 10)

/-- Substring containment on char lists (String.prototype.includes). -/
def infixOfL (pat : List Char) : List Char → Bool
  | [] => pat.isEmpty
  | c :: rest => pat.isPrefixOf (c :: rest) || infixOfL pat rest

/-- String.prototype.includes. -/
def strContains (s pat : String) : Bool := infixOfL pat.data s.data

/-- Delete the first occurrence of a pattern
(String.prototype.replace with the empty replacement). -/
def delFirstL (pat : List Char) : List Char → List Char
  | [] => []
  | c :: rest =>
    if pat.isPrefixOf (c :: rest) then (c :: rest).drop pat.length
    else c :: delFirstL pat rest

/-- String.prototype.replace of a plain pattern by the empty string. -/
def delFirst (s pat : String) : String := ⟨delFirstL pat.data s.data⟩

/-- Trim leading and trailing whitespace (String.prototype.trim). -/
def trimL (cs : List Char) : List Char :=
  ((cs.dropWhile Char.isWhitespace).reverse.dropWhile Char.isWhitespace).reverse

/-- Split a char list at commas (String.prototype.split(',')). -/
def splitCommaL : List Char → List (List Char)
  | [] => [[]]
  | c :: rest =>
    if c = ',' then [] :: splitCommaL rest
    else
      match splitCommaL rest with
      | [] => [[c]]
      | g :: gs => (c :: g) :: gs

/-- The comma-separated-configuration parser used by the table
component: split at commas, trim each piece, drop empty pieces. -/
def splitTrim (s : String) : List String :=
  ((splitCommaL s.data).map (fun cs => (⟨trimL cs⟩ : String))).filter (fun t => t ≠ "")

/-- Value of a decimal digit list. -/
def natOfDigits (cs : List Char) : Nat :=
  cs.foldl (fun a c => 10 * a + (c.toNat - 48)) 0

/-- Parse an unsigned decimal numeral, as the Number() coercion does:
digits with an optional fractional part. -/
def parseUnsigned (cs : List Char) : Option Q :=
  let ip := cs.takeWhile Char.isDigit
  let rest := cs.dropWhile Char.isDigit
  match rest with
  | [] => if ip.isEmpty then none else some (qOfNat (natOfDigits ip))
  | '.' :: fr =>
    if fr.all Char.isDigit && !(ip.isEmpty && fr.isEmpty) then
      some (qNorm ((natOfDigits ip * 10 ^ fr.length + natOfDigits fr : Nat) : Int) (10 ^ fr.length))
    else none
  | _ => none

/-- Negation. -/
def qNeg (q : Q) : Q := ⟨-q.num, q.den⟩

/-- Number(string): trimmed empty string is 0, otherwise an optionally
signed decimal numeral; `none` models NaN. -/
def parseNum (s : String) : Option Q :=
  let t := trimL s.data
  if t.isEmpty then some q0
  else
    match t with
    | '-' :: rest => (parseUnsigned rest).map qNeg
    | '+' :: rest => parseUnsigned rest
    | _ => parseUnsigned t

/-- A JSON field value as the components consume it: null, a number, or
a string.  A missing field is `Option.none` upstream (undefined). -/
inductive Value where
  | vnull
  | num (q : Q)
  | str (s : String)
deriving DecidableEq, Repr

/-- A data record: an association list from field names to values. -/
abbrev Record := List (String × Value)

/-- Field lookup: `row[key]`, `none` meaning undefined. -/
def getF (r : Record) (k : String) : Option Value :=
  match r with
  | [] => none
  | (k', v) :: rest => if k' = k then some v else getF rest k

/-- Field update on a copied record (object spread plus assignment):
replace the first binding in place, or append a new one. -/
def setF (r : Record) (k : String) (v : Value) : Record :=
  match r with
  | [] => [(k, v)]
  | (k', v') :: rest => if k' = k then (k, v) :: rest else (k', v') :: setF rest k v

/-- Number(value) on a present value; `none` models NaN. -/
def jsNumber : Value → Option Q
  | .vnull => some q0
  | .num q => some q
  | .str s => parseNum s

/-- JS truthiness of a present value. -/
def truthy : Value → Bool
  | .vnull => false
  | .num q => !(q.num = 0)
  | .str s => !(s = "")

/-- JS truthiness of a possibly-undefined value. -/
def truthyO : Option Value → Bool
  | none => false
  | some v => truthy v

/-- The numeric reading of `value || 0` as the share calculation uses
it: keep a truthy value (coerced to a number), otherwise 0. -/
def numOr0 (v : Option Value) : Q :=
  if truthyO v then
    match v with
    | some x => (jsNumber x).getD q0
    | none => q0
  else q0

/-- Number(value).toLocaleString() for a present value. -/
def numToLocale (v : Value) : String :=
  match jsNumber v with
  | some q => jsToLocaleString q
  | none => "NaN"

/-- JS String(value) coercion of a possibly-undefined value. -/
def fracDigitsAux : Nat → Nat → Nat → List Char
  | 0, _, _ => []
  | fuel + 1, r, d =>
    if r = 0 then []
    else digitChar (r * 10 / d) :: fracDigitsAux fuel (r * 10 % d) d

/-- Decimal rendering of a rational (JS number-to-string; fractional
expansion cut off at 17 digits, which is exact on every value the
embedded code produces). -/
def qToString (q : Q) : String :=
  let sign := if q.num < 0 then "-" else ""
  let n := q.num.natAbs
  let fr := fracDigitsAux 17 (n % q.den) q.den
  sign ++ toString (n / q.den) ++ (if fr.isEmpty then "" else "." ++ (⟨fr⟩ : String))

/-- String(value): undefined and null print as their names. -/
def jsString : Option Value → String
  | none => "undefined"
  | some .vnull => "null"
  | some (.str s) => s
  | some (.num q) => qToString q

/-- Text produced when a value is interpolated into JSX: null and
undefined render as nothing. -/
def jsxText : Option Value → String
  | none => ""
  | some .vnull => ""
  | some (.str s) => s
  | some (.num q) => qToString q

/-- Three-way comparison of naturals. -/
def natCmp (a b : Nat) : Ordering :=
  if a < b then .lt else if b < a then .gt else .eq

/-- Lexicographic three-way comparison of collation-weight lists. -/
def listCmp : List Nat → List Nat → Ordering
  | [], [] => .eq
  | [], _ :: _ => .lt
  | _ :: _, [] => .gt
  | a :: as, b :: bs =>
    match natCmp a b with
    | .eq => listCmp as bs
    | o => o

/-- Primary (case-insensitive) collation weights of a string. -/
def lowKey (s : String) : List Nat := s.data.map (fun c => c.toLower.toNat)

/-- Tertiary weight: ICU default collation sorts lowercase before
uppercase. -/
def caseRank (c : Char) : Nat := if c.isUpper then 1 else 0

/-- Full collation key: shifted primary weights, a separator, then the
case weights, so that the induced lexicographic order matches the
default-locale localeCompare on the strings the components sort. -/
def collKey (s : String) : List Nat :=
  (s.data.map (fun c => c.toLower.toNat + 1)) ++ (0 :: s.data.map caseRank)

/-- String.prototype.localeCompare, default locale. -/
def localeCmp (a b : String) : Ordering := listCmp (collKey a) (collKey b)

/-- The sort relation used by both components:
`String(a[field]).localeCompare(String(b[field])) <= 0`. -/
def recLe (field : String) (a b : Record) : Prop :=
  localeCmp (jsString (getF a field)) (jsString (getF b field)) ≠ .gt

instance (field : String) : DecidableRel (recLe field) := fun a b => by
  unfold recLe
  infer_instance

/-- Case-insensitive ascending order on the demographic key: the
property the sorted remainder is claimed to satisfy. -/
def lowLe (field : String) (a b : Record) : Prop :=
  listCmp (lowKey (jsString (getF a field))) (lowKey (jsString (getF b field))) ≠ .gt

/-- Configuration surface of the table component (logic-bearing props
of HETDataTable; metric fields and column headers arrive as
comma-separated strings). -/
structure TableProps where
  demographicField : String
  metricFields : String
  columnHeaders : String
  timeFilter : String
  showAllRow : Bool
deriving DecidableEq, Repr

/-- Configuration surface of the chart component (logic-bearing props
of HETRateBarChart). -/
structure ChartProps where
  metricField : String
  demographicField : String
  timeFilter : String
  showAllBar : Bool
deriving DecidableEq, Repr

/-- metricFieldsArray: the parsed metric-field list. -/
def metricFieldsArray (p : TableProps) : List String := splitTrim p.metricFields

/-- columnHeadersArray: the parsed column-header list. -/
def columnHeadersArray (p : TableProps) : List String := splitTrim p.columnHeaders

/-- Filter the dataset to the requested time period
(`d.time_period === timeFilter`, strict string equality). -/
def filterPeriod (ds : List Record) (t : String) : List Record :=
  ds.filter (fun d => getF d ("time_period") = some (Value.str t))

/-- Does the record carry the aggregate sentinel
(`d[demographicField] === 'All'`)? -/
def isAllRec (field : String) (d : Record) : Bool :=
  getF d field = some (Value.str ("All"))

/-- allData: the first record whose demographic value is exactly
"All". -/
def findAll (ds : List Record) (field : String) : Option Record :=
  ds.find? (isAllRec field)

/-- otherData: every record whose demographic value is not "All". -/
def others (ds : List Record) (field : String) : List Record :=
  ds.filter (fun d => !(isAllRec field d))

/-- The gate of the derived-field block: some requested field contains
"_pct_share" or is exactly "population_pct". -/
def augmentGate (mfs : List String) : Bool :=
  mfs.any (fun f => strContains f ("_pct_share") || f = ("population_pct"))

/-- allPrevalence: the aggregate record's hiv_prevalence_per_100k,
defaulted to 0 (`allData?.hiv_prevalence_per_100k || 0`). -/
def allPrevOf (ds : List Record) (field : String) : Q :=
  numOr0 ((findAll ds field).bind (fun r => getF r ("hiv_prevalence_per_100k")))

/-- The computed share: `(prevalence / allPrevalence) * 100` when the
aggregate prevalence is positive, else 0, with both operands read
through the `|| 0` coercion. -/
def pctShareValue (ap : Q) (row : Record) : Value :=
  Value.num
    (if qLtB q0 ap then qMul (qDiv (numOr0 (getF row ("hiv_prevalence_per_100k"))) ap) (qOfNat 100)
     else q0)

/-- First conditional of the map body: fill in
hiv_prevalence_pct_share when requested and falsy on the row. -/
def pctShareStep (mfs : List String) (ap : Q) (row : Record) : Record :=
  if mfs.contains ("hiv_prevalence_pct_share") && !truthyO (getF row ("hiv_prevalence_pct_share")) then
    setF row ("hiv_prevalence_pct_share") (pctShareValue ap row)
  else row

/-- Second conditional of the map body: null out population_pct when
requested and falsy on the original row (the condition reads `row`, the
update applies to the copy). -/
def popPctStep (mfs : List String) (r1 row : Record) : Record :=
  if mfs.contains ("population_pct") && !truthyO (getF row ("population_pct")) then
    setF r1 ("population_pct") Value.vnull
  else r1

/-- The body of the derived-field map: copy the row, fill in
hiv_prevalence_pct_share when requested and falsy, and null out
population_pct when requested and falsy. -/
def augmentRow (mfs : List String) (ap : Q) (row : Record) : Record :=
  popPctStep mfs (pctShareStep mfs ap row) row

/-- The derived-field augmentation step of the table component. -/
def augment (mfs : List String) (field : String) (ds : List Record) : List Record :=
  if augmentGate mfs then ds.map (augmentRow mfs (allPrevOf ds field)) else ds

/-- tableData: the ordered record sequence the table renders — filter
to the period, remember the pre-augmentation aggregate record, augment,
drop aggregate records, sort the rest by localeCompare on the
demographic field, and pin the (pre-augmentation) aggregate record
first when requested and present. -/
def tableData (p : TableProps) (ds : List Record) : List Record :=
  let filtered := filterPeriod ds p.timeFilter
  let allData := findAll filtered p.demographicField
  let augmented := augment (metricFieldsArray p) p.demographicField filtered
  let sorted := List.insertionSort (recLe p.demographicField) (others augmented p.demographicField)
  match p.showAllRow, allData with
  | true, some a => a :: sorted
  | _, _ => sorted

/-- Is the metric usable for a bar
(non-null, non-undefined, Number(...) not NaN)? -/
def metricValid (v : Option Value) : Bool :=
  match v with
  | none => false
  | some .vnull => false
  | some x => (jsNumber x).isSome

/-- The chart's record filter: period match plus a usable metric. -/
def chartFilter (q : ChartProps) (ds : List Record) : List Record :=
  ds.filter (fun d =>
    (getF d ("time_period") = some (Value.str q.timeFilter) : Bool) && metricValid (getF d q.metricField))

/-- chartData: the ordered record sequence behind the bars. -/
def chartData (q : ChartProps) (ds : List Record) : List Record :=
  let filtered := chartFilter q ds
  let allData := findAll filtered q.demographicField
  let sorted := List.insertionSort (recLe q.demographicField) (others filtered q.demographicField)
  match q.showAllBar, allData with
  | true, some a => a :: sorted
  | _, _ => sorted

/-- formatValue: null/undefined become an em-dash; non-numeric strings
pass through; numbers are formatted by field-name convention, the
percentage rule first, then the per-100k rule, then the count/total
rule, then locale grouping. -/
def formatValue (value : Option Value) (fieldName : String) : String :=
  match value with
  | none => "—"
  | some .vnull => "—"
  | some v =>
    match jsNumber v with
    | none => jsString (some v)
    | some q =>
      if strContains fieldName ("pct") || strContains fieldName ("share") then
        jsToFixed1 q ++ "%"
      else if strContains fieldName ("per_100k") then
        toString (jsRound q)
      else if strContains fieldName ("count") || strContains fieldName ("total") then
        jsToLocaleString q
      else jsToLocaleString q

/-- Is the value present and not null (the guard of the rate
annotation)? -/
def definedNonNull : Option Value → Bool
  | none => false
  | some .vnull => false
  | some _ => true

/-- Number(value).toLocaleString() of a possibly-undefined value. -/
def numToLocaleO : Option Value → String
  | none => "NaN"
  | some v => numToLocale v

/-- getAdditionalInfo: for a per-100k field, look up the sibling
"<base>_count" field (rate suffix deleted) and the literal
"population" field, and render the parenthetical context line when both
are present and non-null. -/
def getAdditionalInfo (row : Record) (fieldName : String) : String :=
  if !strContains fieldName ("per_100k") then ""
  else
    let countField := delFirst fieldName ("_per_100k") ++ ("_count")
    let c := getF row countField
    let p := getF row ("population")
    if definedNonNull c && definedNonNull p then
      " ( " ++ numToLocaleO c ++ " Individuals living with HIV / " ++ numToLocaleO p ++ " Total population )"
    else ""

/-- One rendered table cell: the formatted value, the additional-info
line, and which unit-suffix spans are shown. -/
structure CellView where
  text : String
  info : String
  per100kSuffix : Bool
  prevalencePctSuffix : Bool
  populationPctSuffix : Bool
deriving DecidableEq, Repr

/-- Build the cell for one record and metric field, mirroring the cell
JSX: the per-100k unit suffix is suppressed whenever the
additional-info annotation is non-empty, and also when the value is
strictly null. -/
def mkCell (row : Record) (field : String) : CellView :=
  let value := getF row field
  let info := getAdditionalInfo row field
  { text := formatValue value field
    info := info
    per100kSuffix := strContains field ("per_100k") && (info = "" : Bool) && !(value = some Value.vnull : Bool)
    prevalencePctSuffix := strContains field ("prevalence") && strContains field ("pct")
    populationPctSuffix := strContains field ("population") && strContains field ("pct") }

/-- One rendered table row. -/
structure RowView where
  label : String
  bold : Bool
  cells : List CellView
deriving DecidableEq, Repr

/-- The steady state of the data fetch of one component instance. -/
inductive FetchState where
  | inflight
  | failed (msg : String)
  | loaded (ds : List Record)
deriving DecidableEq, Repr

/-- What the table component renders. -/
inductive TableOutcome where
  | loading
  | errorView (msg : String)
  | noData (period : String)
  | table (headers : List String) (rows : List RowView)
deriving DecidableEq, Repr

/-- The demographic header cell: underscores to spaces, each word
capitalized. -/
def isWordChar (c : Char) : Bool := c.isAlphanum || c = '_'

/-- Capitalize every word start (the replace(..., toUpperCase) pass). -/
def titleCaseL (prevWord : Bool) : List Char → List Char
  | [] => []
  | c :: cs =>
    (if !prevWord && isWordChar c then c.toUpper else c) :: titleCaseL (isWordChar c) cs

/-- The transformed demographic-field header label. -/
def headerTitle (field : String) : String :=
  ⟨titleCaseL false (field.data.map (fun c => if c = '_' then ' ' else c))⟩

/-- Build one table row from a record. -/
def mkRow (p : TableProps) (r : Record) : RowView :=
  { label := jsxText (getF r p.demographicField)
    bold := isAllRec p.demographicField r
    cells := (metricFieldsArray p).map (fun field => mkCell r field) }

/-- What HETDataTable renders in each fetch state: the loading box, the
error box, the no-data box when no record matches the period, or the
table built from tableData — with no check that the metric-field and
column-header lists have equal lengths. -/
def renderTable (p : TableProps) (f : FetchState) : TableOutcome :=
  match f with
  | .inflight => .loading
  | .failed msg => .errorView msg
  | .loaded ds =>
    if (filterPeriod ds p.timeFilter).isEmpty then .noData p.timeFilter
    else
      .table (headerTitle p.demographicField :: columnHeadersArray p)
        ((tableData p ds).map (fun r => mkRow p r))

/-- One rendered bar. -/
structure BarView where
  label : String
  value : Q
  aggColor : Bool
deriving DecidableEq, Repr

/-- Build the bar for one selected record. -/
def mkBar (q : ChartProps) (d : Record) : BarView :=
  { label := jsString (getF d q.demographicField)
    value := ((getF d q.metricField).bind jsNumber).getD q0
    aggColor := isAllRec q.demographicField d }

/-- What the chart component renders. -/
inductive ChartOutcome where
  | loading
  | errorView (msg : String)
  | noData (period : String)
  | chart (bars : List BarView)
deriving DecidableEq, Repr

/-- What HETRateBarChart renders in each fetch state: when the fetch
succeeded but no record passes the filter, the render effect calls
setError, so the component lands in the same error view used for fetch
failures; an entirely empty dataset leaves the chart area blank.  The
`noData` constructor exists in the outcome type but the chart never
produces it. -/
def renderChart (q : ChartProps) (f : FetchState) : ChartOutcome :=
  match f with
  | .inflight => .loading
  | .failed msg => .errorView msg
  | .loaded ds =>
    if ds.isEmpty then .chart []
    else if (chartFilter q ds).isEmpty then .errorView ("No data available for " ++ q.timeFilter)
    else .chart ((chartData q ds).map (fun d => mkBar q d))

/-- Is the outcome the dedicated no-data view? -/
def chartIsNoData : ChartOutcome → Bool
  | .noData _ => true
  | _ => false

/-- Is the outcome a rendered table? -/
def isTableView : TableOutcome → Bool
  | .table _ _ => true
  | _ => false

/-- Header-cell count of a rendered table. -/
def headerCount : TableOutcome → Nat
  | .table hs _ => hs.length
  | _ => 0

/-- Metric-cell count of each rendered row. -/
def rowCellCounts : TableOutcome → List Nat
  | .table _ rs => rs.map (fun r => r.cells.length)
  | _ => []

/-- The component state touched by the fetch effect. -/
structure CompState where
  data : Option (List Record)
  loading : Bool
  error : Option String
deriving DecidableEq, Repr

/-- The state before any effect has run. -/
def initState : CompState := { data := none, loading := true, error := none }

/-- Events of the fetch lifecycle: the effect running for a (possibly
new) URL, and a started request resolving or rejecting.  The URL is
recorded on each event; the handlers the code installs ignore it. -/
inductive FetchEvent where
  | effectRun (url : String)
  | arriveOk (url : String) (ds : List Record)
  | arriveErr (url : String) (msg : String)
deriving DecidableEq, Repr

/-- One event against the component state, exactly as the effect's
callbacks are written: every resolution applies unconditionally, with
no staleness guard. -/
def stepEvent (s : CompState) : FetchEvent → CompState
  | .effectRun _ => { s with loading := true, error := none }
  | .arriveOk _ ds => { s with data := some ds, loading := false }
  | .arriveErr _ msg => { s with error := some msg, loading := false }

/-- Run a whole interleaving of fetch events. -/
def runEvents (s : CompState) (evs : List FetchEvent) : CompState :=
  evs.foldl stepEvent s

theorem natCmp_eq_lt {a b : Nat} : natCmp a b = .lt ↔ a < b := by
  unfold natCmp
  split
  · simp_all
  · split
    · constructor
      · intro h
        exact absurd h (by simp)
      · omega
    · constructor
      · intro h
        exact absurd h (by simp)
      · omega

theorem natCmp_eq_gt {a b : Nat} : natCmp a b = .gt ↔ b < a := by
  unfold natCmp
  split
  · constructor
    · intro h
      exact absurd h (by simp)
    · omega
  · split <;> simp_all

theorem natCmp_eq_eq {a b : Nat} : natCmp a b = .eq ↔ a = b := by
  unfold natCmp
  split
  · constructor
    · intro h
      exact absurd h (by simp)
    · omega
  · split
    · constructor
      · intro h
        exact absurd h (by simp)
      · omega
    · constructor
      · intro _
        omega
      · intro _
        rfl

theorem listCmp_nil_ne_gt (ys : List Nat) : listCmp [] ys ≠ .gt := by
  cases ys <;> simp [listCmp]

theorem listCmp_cons_nil_eq_gt (x : Nat) (xs : List Nat) : listCmp (x :: xs) [] = .gt := rfl

theorem listCmp_le_trans :
    ∀ {xs ys zs : List Nat}, listCmp xs ys ≠ .gt → listCmp ys zs ≠ .gt → listCmp xs zs ≠ .gt := by
  intro xs
  induction xs with
  | nil =>
    intro ys zs _ _
    exact listCmp_nil_ne_gt zs
  | cons x xs ih =>
    intro ys zs h1 h2
    cases ys with
    | nil => exact absurd (listCmp_cons_nil_eq_gt x xs) h1
    | cons y ys =>
      cases zs with
      | nil => exact absurd (listCmp_cons_nil_eq_gt y ys) h2
      | cons z zs =>
        simp only [listCmp] at h1 h2 ⊢
        cases hxy : natCmp x y <;> rw [hxy] at h1 <;> cases hyz : natCmp y z <;> rw [hyz] at h2
        · have hxz : natCmp x z = .lt :=
            natCmp_eq_lt.2 (Nat.lt_trans (natCmp_eq_lt.1 hxy) (natCmp_eq_lt.1 hyz))
          simp [hxz]
        · have hxz : natCmp x z = .lt := by
            rw [natCmp_eq_lt]
            rw [natCmp_eq_eq] at hyz
            exact hyz ▸ natCmp_eq_lt.1 hxy
          simp [hxz]
        · exact absurd rfl h2
        · have hxz : natCmp x z = .lt := by
            rw [natCmp_eq_lt]
            rw [natCmp_eq_eq] at hxy
            exact hxy ▸ natCmp_eq_lt.1 hyz
          simp [hxz]
        · have hxz : natCmp x z = .eq := by
            rw [natCmp_eq_eq]
            rw [natCmp_eq_eq] at hxy hyz
            omega
          rw [hxz]
          exact ih h1 h2
        · exact absurd rfl h2
        · exact absurd rfl h1
        · exact absurd rfl h1
        · exact absurd rfl h1

theorem listCmp_swap : ∀ (xs ys : List Nat), (listCmp xs ys).swap = listCmp ys xs := by
  intro xs
  induction xs with
  | nil =>
    intro ys
    cases ys <;> rfl
  | cons x xs ih =>
    intro ys
    cases ys with
    | nil => rfl
    | cons y ys =>
      simp only [listCmp]
      cases hxy : natCmp x y
      · have hyx : natCmp y x = .gt := natCmp_eq_gt.2 (natCmp_eq_lt.1 hxy)
        simp [hyx, Ordering.swap]
      · have hyx : natCmp y x = .eq := natCmp_eq_eq.2 (natCmp_eq_eq.1 hxy).symm
        simp [hyx, ih]
      · have hyx : natCmp y x = .lt := natCmp_eq_lt.2 (natCmp_eq_gt.1 hxy)
        simp [hyx, Ordering.swap]

theorem listCmp_le_total (xs ys : List Nat) : listCmp xs ys ≠ .gt ∨ listCmp ys xs ≠ .gt := by
  cases h : listCmp xs ys with
  | lt =>
    left
    simp [h]
  | eq =>
    left
    simp [h]
  | gt =>
    right
    have := listCmp_swap xs ys
    rw [h] at this
    rw [← this]
    simp [Ordering.swap]

instance recLeTrans (field : String) : IsTrans Record (recLe field) :=
  ⟨fun _ _ _ h1 h2 => listCmp_le_trans h1 h2⟩

instance recLeTotal (field : String) : IsTotal Record (recLe field) :=
  ⟨fun a b =>
    listCmp_le_total (collKey (jsString (getF a field))) (collKey (jsString (getF b field)))⟩

theorem listCmp_shift_gt :
    ∀ (xs ys cs ds : List Nat), listCmp xs ys = .gt →
      listCmp (xs.map (fun n => n + 1) ++ (0 :: cs)) (ys.map (fun n => n + 1) ++ (0 :: ds)) = .gt := by
  intro xs
  induction xs with
  | nil =>
    intro ys cs ds h
    exact absurd h (listCmp_nil_ne_gt ys)
  | cons x xs ih =>
    intro ys cs ds h
    cases ys with
    | nil =>
      simp only [List.map_cons, List.map_nil, List.cons_append, List.nil_append, listCmp]
      have hx : natCmp (x + 1) 0 = .gt := natCmp_eq_gt.2 (Nat.succ_pos x)
      simp [hx]
    | cons y ys =>
      simp only [listCmp] at h
      simp only [List.map_cons, List.cons_append, listCmp]
      cases hxy : natCmp x y <;> rw [hxy] at h
      · exact absurd h (by simp)
      · have hx : natCmp (x + 1) (y + 1) = .eq := by
          rw [natCmp_eq_eq]
          rw [natCmp_eq_eq] at hxy
          omega
        rw [hx]
        exact ih ys cs ds h
      · have hx : natCmp (x + 1) (y + 1) = .gt := by
          rw [natCmp_eq_gt]
          rw [natCmp_eq_gt] at hxy
          omega
        simp [hx]

theorem collKey_eq (s : String) :
    collKey s = (lowKey s).map (fun n => n + 1) ++ (0 :: s.data.map caseRank) := by
  simp [collKey, lowKey, List.map_map]

theorem collKey_gt_of_lowKey_gt {a b : String}
    (h : listCmp (lowKey a) (lowKey b) = .gt) : listCmp (collKey a) (collKey b) = .gt := by
  rw [collKey_eq a, collKey_eq b]
  exact listCmp_shift_gt _ _ _ _ h

theorem recLe_imp_lowLe {field : String} {a b : Record} (h : recLe field a b) : lowLe field a b :=
  fun hgt => h (collKey_gt_of_lowKey_gt hgt)

/-- The sorted remainder is ascending case-insensitively on the
demographic key. -/
theorem sorted_lowLe_insertionSort (field : String) (l : List Record) :
    List.Sorted (lowLe field) (List.insertionSort (recLe field) l) :=
  List.Pairwise.imp recLe_imp_lowLe (List.sorted_insertionSort (recLe field) l)

theorem getF_setF_self (r : Record) (k : String) (v : Value) : getF (setF r k v) k = some v := by
  induction r with
  | nil => simp [setF, getF]
  | cons hd tl ih =>
    obtain ⟨k', v'⟩ := hd
    by_cases h : k' = k
    · simp [setF, getF, h]
    · simp [setF, getF, h, ih]

theorem getF_setF_ne (r : Record) {k k' : String} (h : k ≠ k') (v : Value) :
    getF (setF r k v) k' = getF r k' := by
  induction r with
  | nil => simp [setF, getF, h]
  | cons hd tl ih =>
    obtain ⟨k0, v0⟩ := hd
    by_cases h0 : k0 = k
    · subst h0
      simp [setF, getF, h]
    · simp [setF, getF, h0, ih]

theorem setF_of_getF {r : Record} {k : String} {v : Value} (h : getF r k = some v) :
    setF r k v = r := by
  induction r with
  | nil => simp [getF] at h
  | cons hd tl ih =>
    obtain ⟨k0, v0⟩ := hd
    by_cases h0 : k0 = k
    · subst h0
      simp [getF] at h
      simp [setF, h]
    · simp [getF, h0] at h
      simp [setF, h0, ih h]

theorem getF_pctShareStep_ne (mfs : List String) (ap : Q) (row : Record) {k : String}
    (h1 : k ≠ ("hiv_prevalence_pct_share")) :
    getF (pctShareStep mfs ap row) k = getF row k := by
  unfold pctShareStep
  split
  · rw [getF_setF_ne _ (fun hh => h1 hh.symm)]
  · rfl

theorem getF_popPctStep_ne (mfs : List String) (r1 row : Record) {k : String}
    (h2 : k ≠ ("population_pct")) :
    getF (popPctStep mfs r1 row) k = getF r1 k := by
  unfold popPctStep
  split
  · rw [getF_setF_ne _ (fun hh => h2 hh.symm)]
  · rfl

theorem getF_augmentRow_ne (mfs : List String) (ap : Q) (row : Record) {k : String}
    (h1 : k ≠ ("hiv_prevalence_pct_share")) (h2 : k ≠ ("population_pct")) :
    getF (augmentRow mfs ap row) k = getF row k := by
  unfold augmentRow
  rw [getF_popPctStep_ne _ _ _ h2, getF_pctShareStep_ne _ _ _ h1]

theorem truthy_str_all : truthy (Value.str ("All")) = true := by decide

theorem notAll_of_untruthy {v : Option Value} (h : truthyO v = false) :
    v ≠ some (Value.str ("All")) := by
  intro hv
  subst hv
  simp [truthyO, truthy_str_all] at h

theorem isAllRec_setF_untruthy (f k : String) (row : Record) (v : Value)
    (h : truthyO (getF row k) = false) (hv : v ≠ Value.str ("All")) :
    isAllRec f (setF row k v) = isAllRec f row := by
  by_cases hk : k = f
  · subst hk
    simp only [isAllRec, getF_setF_self]
    have h1 : ¬(some v = some (Value.str ("All"))) := by
      intro hh
      exact hv (Option.some.injEq _ _ ▸ hh)
    have h2 : ¬(getF row k = some (Value.str ("All"))) := notAll_of_untruthy h
    simp [h1, h2]
  · simp only [isAllRec]
    rw [getF_setF_ne _ hk]

theorem isAllRec_pctShareStep (f : String) (mfs : List String) (ap : Q) (row : Record) :
    isAllRec f (pctShareStep mfs ap row) = isAllRec f row := by
  unfold pctShareStep
  split
  case isTrue hc1 =>
    have hu1 : truthyO (getF row ("hiv_prevalence_pct_share")) = false := by
      rw [Bool.and_eq_true] at hc1
      simpa using hc1.2
    exact isAllRec_setF_untruthy _ _ _ _ hu1 (by intro hh; cases hh)
  case isFalse => rfl

theorem isAllRec_augmentRow (f : String) (mfs : List String) (ap : Q) (row : Record) :
    isAllRec f (augmentRow mfs ap row) = isAllRec f row := by
  unfold augmentRow popPctStep
  split
  case isTrue hc2 =>
    have hu2 : truthyO (getF row ("population_pct")) = false := by
      rw [Bool.and_eq_true] at hc2
      simpa using hc2.2
    have hu2' : truthyO (getF (pctShareStep mfs ap row) ("population_pct")) = false := by
      rw [getF_pctShareStep_ne _ _ _ (by decide)]
      exact hu2
    rw [isAllRec_setF_untruthy _ _ _ _ hu2' (by intro hh; cases hh)]
    exact isAllRec_pctShareStep f mfs ap row
  case isFalse => exact isAllRec_pctShareStep f mfs ap row

theorem findAll_map_augmentRow (ds : List Record) (f : String) (mfs : List String) (ap : Q) :
    findAll (ds.map (augmentRow mfs ap)) f = (findAll ds f).map (augmentRow mfs ap) := by
  unfold findAll
  rw [List.find?_map]
  have hp : (isAllRec f ∘ augmentRow mfs ap) = isAllRec f := by
    funext row
    exact isAllRec_augmentRow f mfs ap row

  rw [hp]

theorem allPrevOf_map_augmentRow (mfs : List String) (f : String) (ap : Q) (ds : List Record) :
    allPrevOf (ds.map (augmentRow mfs ap)) f = allPrevOf ds f := by
  unfold allPrevOf
  rw [findAll_map_augmentRow]
  cases h : findAll ds f with
  | none => rfl
  | some r =>
    have hx : getF (augmentRow mfs ap r) ("hiv_prevalence_per_100k")
        = getF r ("hiv_prevalence_per_100k") :=
      getF_augmentRow_ne _ _ _ (by decide) (by decide)
    simp [hx]

theorem augment_of_gate (mfs : List String) (field : String) (ds : List Record)
    (hg : augmentGate mfs = true) :
    augment mfs field ds = ds.map (augmentRow mfs (allPrevOf ds field)) := by
  unfold augment
  rw [if_pos hg]

theorem pctShareStep_augmentRow (mfs : List String) (ap : Q) (row : Record) :
    pctShareStep mfs ap (augmentRow mfs ap row) = augmentRow mfs ap row := by
  unfold pctShareStep
  split
  case isTrue hc =>
    have hbase : getF (augmentRow mfs ap row) ("hiv_prevalence_per_100k")
        = getF row ("hiv_prevalence_per_100k") :=
      getF_augmentRow_ne _ _ _ (by decide) (by decide)
    have hval : pctShareValue ap (augmentRow mfs ap row) = pctShareValue ap row := by
      unfold pctShareValue
      rw [hbase]
    rw [Bool.and_eq_true] at hc
    obtain ⟨hcont, huntr⟩ := hc
    have huntr' : truthyO (getF (augmentRow mfs ap row) ("hiv_prevalence_pct_share")) = false := by
      simpa using huntr
    have hout : getF (augmentRow mfs ap row) ("hiv_prevalence_pct_share")
        = getF (pctShareStep mfs ap row) ("hiv_prevalence_pct_share") := by
      unfold augmentRow
      exact getF_popPctStep_ne _ _ _ (by decide)
    by_cases hc1 :
        (mfs.contains ("hiv_prevalence_pct_share")
          && !truthyO (getF row ("hiv_prevalence_pct_share"))) = true
    · have hr1 : getF (pctShareStep mfs ap row) ("hiv_prevalence_pct_share")
          = some (pctShareValue ap row) := by
        unfold pctShareStep
        rw [if_pos hc1]
        exact getF_setF_self _ _ _
      have hstored : getF (augmentRow mfs ap row) ("hiv_prevalence_pct_share")
          = some (pctShareValue ap (augmentRow mfs ap row)) := by
        rw [hout, hr1, hval]
      exact setF_of_getF hstored
    · have hfalse : (mfs.contains ("hiv_prevalence_pct_share")
          && !truthyO (getF row ("hiv_prevalence_pct_share"))) = false :=
        Bool.eq_false_iff.2 hc1
      have hrowtruthy : truthyO (getF row ("hiv_prevalence_pct_share")) = true := by
        cases htr : truthyO (getF row ("hiv_prevalence_pct_share")) with
        | false =>
          rw [hcont, htr] at hfalse
          simp at hfalse
        | true => rfl
      have hsame : getF (pctShareStep mfs ap row) ("hiv_prevalence_pct_share")
          = getF row ("hiv_prevalence_pct_share") := by
        unfold pctShareStep
        rw [if_neg hc1]
      rw [hout, hsame, hrowtruthy] at huntr'
      cases huntr'
  case isFalse => rfl

theorem augmentRow_augmentRow (mfs : List String) (ap : Q) (row : Record) :
    augmentRow mfs ap (augmentRow mfs ap row) = augmentRow mfs ap row := by
  show popPctStep mfs (pctShareStep mfs ap (augmentRow mfs ap row)) (augmentRow mfs ap row)
      = augmentRow mfs ap row
  rw [pctShareStep_augmentRow]
  unfold popPctStep
  split
  case isTrue hc =>
    rw [Bool.and_eq_true] at hc
    obtain ⟨hcont, huntr⟩ := hc
    have huntr' : truthyO (getF (augmentRow mfs ap row) ("population_pct")) = false := by
      simpa using huntr
    by_cases hc2 :
        (mfs.contains ("population_pct") && !truthyO (getF row ("population_pct"))) = true
    · have hpv : getF (augmentRow mfs ap row) ("population_pct") = some Value.vnull := by
        unfold augmentRow popPctStep
        rw [if_pos hc2]
        exact getF_setF_self _ _ _
      exact setF_of_getF hpv
    · have hfalse : (mfs.contains ("population_pct")
          && !truthyO (getF row ("population_pct"))) = false :=
        Bool.eq_false_iff.2 hc2
      have hrowtruthy : truthyO (getF row ("population_pct")) = true := by
        cases htr : truthyO (getF row ("population_pct")) with
        | false =>
          rw [hcont, htr] at hfalse
          simp at hfalse
        | true => rfl
      have h1 : augmentRow mfs ap row = pctShareStep mfs ap row := by
        unfold augmentRow popPctStep
        rw [if_neg hc2]
      have h2 : getF (augmentRow mfs ap row) ("population_pct")
          = getF row ("population_pct") := by
        rw [h1]
        exact getF_pctShareStep_ne _ _ _ (by decide)
      rw [h2, hrowtruthy] at huntr'
      cases huntr'
  case isFalse => rfl

theorem augment_augment (mfs : List String) (field : String) (ds : List Record) :
    augment mfs field (augment mfs field ds) = augment mfs field ds := by
  by_cases hg : augmentGate mfs = true
  · have hfun : (augmentRow mfs (allPrevOf ds field) ∘ augmentRow mfs (allPrevOf ds field))
        = augmentRow mfs (allPrevOf ds field) := by
      funext row
      exact augmentRow_augmentRow _ _ _
    rw [augment_of_gate mfs field (augment mfs field ds) hg]
    rw [augment_of_gate mfs field ds hg]
    rw [allPrevOf_map_augmentRow]
    rw [List.map_map]
    rw [hfun]
  · have hg' : augmentGate mfs = false := Bool.eq_false_iff.2 hg
    simp [augment, hg']

theorem str_append_empty (s : String) : s ++ "" = s := by
  cases s with
  | mk data =>
    show String.mk (data ++ []) = String.mk data
    rw [List.append_nil]

theorem str_empty_append (s : String) : "" ++ s = s := rfl

/-- An integer value locale-formats as its grouped numeral. -/
theorem jsToLocaleString_nat (n : Nat) : jsToLocaleString (qOfNat n) = commify (toString n) := by
  unfold jsToLocaleString qOfNat halfUpNat
  simp only [Int.natAbs_ofNat]
  have hsign : ¬((n : Int) < 0) := by omega
  have hm : (2 * 1000 * n + 1) / (2 * 1) = 1000 * n := by omega
  have hip : 1000 * n / 1000 = n := by omega
  have hfp : 1000 * n % 1000 = 0 := by omega
  rw [if_neg hsign, hm, hip, hfp, if_pos rfl, str_append_empty, str_empty_append]

theorem qNorm_zero (d : Nat) : qNorm 0 d = q0 := by
  unfold qNorm fdivNat
  by_cases h : d = 0
  · simp [h, q0]
  · simp [h, Nat.gcd_zero_left, Nat.div_self (Nat.pos_of_ne_zero h), q0]

theorem qNormI_zero (d : Int) : qNormI 0 d = q0 := by
  unfold qNormI
  split
  · rw [show (-(0 : Int)) = 0 from rfl]
    exact qNorm_zero _
  · exact qNorm_zero _

theorem qDiv_num_zero {n : Q} (h : n.num = 0) (d : Q) : qDiv n d = q0 := by
  unfold qDiv
  rw [h, Int.zero_mul]
  exact qNormI_zero _

/-- The `prevalence || 0` coercion cannot change the computed share. -/
theorem numOr0_div_mul (n d c : Q) :
    qMul (qDiv (numOr0 (some (Value.num n))) d) c = qMul (qDiv n d) c := by
  by_cases h : n.num = 0
  · have h1 : numOr0 (some (Value.num n)) = q0 := by
      unfold numOr0 truthyO truthy jsNumber
      simp [h]
    rw [h1, qDiv_num_zero h, qDiv_num_zero rfl]
  · have h1 : numOr0 (some (Value.num n)) = n := by
      unfold numOr0 truthyO truthy jsNumber
      simp [h]
    rw [h1]

theorem numOr0_num_of_pos {d : Q} (h : qLtB q0 d = true) :
    numOr0 (some (Value.num d)) = d := by
  unfold qLtB q0 at h
  have h' : 0 < d.num := by simpa using h
  have hd : d.num ≠ 0 := by omega
  unfold numOr0 truthyO truthy jsNumber
  simp [hd]

theorem numOr0_num_zero : numOr0 (some (Value.num q0)) = q0 := by decide

theorem allPrevOf_some {ds : List Record} {field : String} {aggr : Record} {d : Q}
    (hf : findAll ds field = some aggr)
    (hb : getF aggr ("hiv_prevalence_per_100k") = some (Value.num d)) :
    allPrevOf ds field = numOr0 (some (Value.num d)) := by
  unfold allPrevOf
  rw [hf]
  simp [hb]

theorem allPrevOf_none {ds : List Record} {field : String}
    (hf : findAll ds field = none) : allPrevOf ds field = q0 := by
  unfold allPrevOf
  rw [hf]
  rfl

theorem definedNonNull_some {v : Value} (h : v ≠ Value.vnull) :
    definedNonNull (some v) = true := by
  cases v with
  | vnull => exact absurd rfl h
  | num q => rfl
  | str s => rfl

/-- A request for hiv_prevalence_pct_share opens the derived-field
gate. -/
theorem augmentGate_of_pctShare {mfs : List String}
    (h : mfs.contains ("hiv_prevalence_pct_share") = true) : augmentGate mfs = true := by
  have hmem : ("hiv_prevalence_pct_share") ∈ mfs := by simpa using h
  unfold augmentGate
  rw [List.any_eq_true]
  exact ⟨_, hmem, by decide⟩

/-! Concrete fixtures for counterexamples and witnesses. -/

/-- C1 counterexample props: defaults of the table component with the
aggregate row requested. -/
def pC1 : TableProps :=
  { demographicField := "race_and_ethnicity"
    metricFields := "hiv_prevalence_per_100k"
    columnHeaders := "HIV prevalence per 100k people"
    timeFilter := "2021"
    showAllRow := true }

/-- The same props with the aggregate row not requested. -/
def pC1noAgg : TableProps := { pC1 with showAllRow := false }

/-- A record whose demographic value is White. -/
def recWhiteC1 : Record :=
  [(("race_and_ethnicity"), Value.str ("White")), (("time_period"), Value.str ("2021")),
    (("hiv_prevalence_per_100k"), Value.num (qOfNat 200))]

/-- A record whose demographic value is the lowercase string all. -/
def recLowerAllC1 : Record :=
  [(("race_and_ethnicity"), Value.str ("all")), (("time_period"), Value.str ("2021")),
    (("hiv_prevalence_per_100k"), Value.num (qOfNat 100))]

/-- A record whose demographic value is Black. -/
def recBlackC1 : Record :=
  [(("race_and_ethnicity"), Value.str ("Black")), (("time_period"), Value.str ("2021")),
    (("hiv_prevalence_per_100k"), Value.num (qOfNat 300))]

/-- The C1 example dataset with demographic values White, all, Black. -/
def dsC1 : List Record := [recWhiteC1, recLowerAllC1, recBlackC1]

/-- C1: the claim's example fails on the code: the aggregate sentinel
match is `=== 'All'`, strictly case-sensitive, so on demographic values
["White", "all", "Black"] no Aggregate Record is detected at all — the
"all" record merely sorts first, is not pinned, and is still present
when includeAggregate is false. -/
theorem C1_counterexample :
    findAll (filterPeriod dsC1 pC1.timeFilter) pC1.demographicField = none
    ∧ tableData pC1 dsC1 = [recLowerAllC1, recBlackC1, recWhiteC1]
    ∧ tableData pC1noAgg dsC1 = [recLowerAllC1, recBlackC1, recWhiteC1]
    ∧ getF recLowerAllC1 pC1.demographicField ≠ some (Value.str ("All")) := by
  decide

/-- C1 (amended): with the aggregate sentinel matched case-sensitively
as exactly "All", both the table and the chart selection place the
found Aggregate Record first when the include flag is set and it is
present, and the remainder is exactly the non-aggregate records sorted
ascending and case-insensitively by the demographic key. -/
theorem C1_revised :
    (∀ (p : TableProps) (ds : List Record) (a : Record),
        p.showAllRow = true →
        findAll (filterPeriod ds p.timeFilter) p.demographicField = some a →
        (tableData p ds).head? = some a
        ∧ (tableData p ds).tail
            = List.insertionSort (recLe p.demographicField)
                (others
                  (augment (metricFieldsArray p) p.demographicField (filterPeriod ds p.timeFilter))
                  p.demographicField)
        ∧ List.Sorted (lowLe p.demographicField) ((tableData p ds).tail)
        ∧ ((tableData p ds).tail).Perm
            (others
              (augment (metricFieldsArray p) p.demographicField (filterPeriod ds p.timeFilter))
              p.demographicField))
    ∧ (∀ (q : ChartProps) (ds : List Record) (a : Record),
        q.showAllBar = true →
        findAll (chartFilter q ds) q.demographicField = some a →
        (chartData q ds).head? = some a
        ∧ List.Sorted (lowLe q.demographicField) ((chartData q ds).tail)
        ∧ ((chartData q ds).tail).Perm (others (chartFilter q ds) q.demographicField)) := by
  constructor
  · intro p ds a hshow hfind
    have ht : tableData p ds
        = a :: List.insertionSort (recLe p.demographicField)
            (others
              (augment (metricFieldsArray p) p.demographicField (filterPeriod ds p.timeFilter))
              p.demographicField) := by
      simp only [tableData]
      rw [hshow, hfind]
    refine ⟨?_, ?_, ?_, ?_⟩
    · rw [ht]
      rfl
    · rw [ht]
      rfl
    · rw [ht]
      exact sorted_lowLe_insertionSort _ _
    · rw [ht]
      exact List.perm_insertionSort _ _
  · intro q ds a hshow hfind
    have ht : chartData q ds
        = a :: List.insertionSort (recLe q.demographicField)
            (others (chartFilter q ds) q.demographicField) := by
      simp only [chartData]
      rw [hshow, hfind]
    refine ⟨?_, ?_, ?_⟩
    · rw [ht]
      rfl
    · rw [ht]
      exact sorted_lowLe_insertionSort _ _
    · rw [ht]
      exact List.perm_insertionSort _ _

/-- Witness props for the amended C1, table side. -/
def pW1 : TableProps :=
  { demographicField := "race_and_ethnicity"
    metricFields := "hiv_prevalence_per_100k"
    columnHeaders := "HIV prevalence per 100k people"
    timeFilter := "2021"
    showAllRow := true }

/-- Witness props for the amended C1, chart side. -/
def qW1 : ChartProps :=
  { metricField := "hiv_prevalence_per_100k"
    demographicField := "race_and_ethnicity"
    timeFilter := "2021"
    showAllBar := true }

/-- The witness aggregate record. -/
def aggW1 : Record :=
  [(("race_and_ethnicity"), Value.str ("All")), (("time_period"), Value.str ("2021")),
    (("hiv_prevalence_per_100k"), Value.num (qOfNat 100))]

/-- A witness non-aggregate record. -/
def blackW1 : Record :=
  [(("race_and_ethnicity"), Value.str ("Black")), (("time_period"), Value.str ("2021")),
    (("hiv_prevalence_per_100k"), Value.num (qOfNat 150))]

/-- The witness dataset (aggregate listed last to show the pinning). -/
def dsW1 : List Record := [blackW1, aggW1]

/-- C1 witness: the amended theorem applied to a concrete dataset. -/
theorem C1_revised_witness :
    pW1.showAllRow = true
    ∧ findAll (filterPeriod dsW1 pW1.timeFilter) pW1.demographicField = some aggW1
    ∧ (tableData pW1 dsW1).head? = some aggW1
    ∧ qW1.showAllBar = true
    ∧ findAll (chartFilter qW1 dsW1) qW1.demographicField = some aggW1
    ∧ (chartData qW1 dsW1).head? = some aggW1 :=
  ⟨rfl, by decide, (C1_revised.1 pW1 dsW1 aggW1 rfl (by decide)).1,
    rfl, by decide, (C1_revised.2 qW1 dsW1 aggW1 rfl (by decide)).1⟩

/-- C8 props: the variant requesting the derived share field. -/
def p8 : TableProps :=
  { demographicField := "race_and_ethnicity"
    metricFields := "hiv_prevalence_per_100k,hiv_prevalence_pct_share"
    columnHeaders := "HIV prevalence per 100k people,Share of total HIV prevalence"
    timeFilter := "2021"
    showAllRow := true }

/-- The aggregate record, with no pct-share field in the source data. -/
def agg8 : Record :=
  [(("race_and_ethnicity"), Value.str ("All")), (("time_period"), Value.str ("2021")),
    (("hiv_prevalence_per_100k"), Value.num (qOfNat 100))]

/-- A non-aggregate record, also without the pct-share field. -/
def blk8 : Record :=
  [(("race_and_ethnicity"), Value.str ("Black")), (("time_period"), Value.str ("2021")),
    (("hiv_prevalence_per_100k"), Value.num (qOfNat 50))]

/-- The C8 dataset. -/
def ds8 : List Record := [agg8, blk8]

/-- The augmented Black record: share = 50 / 100 * 100 = 50. -/
def blk8aug : Record :=
  [(("race_and_ethnicity"), Value.str ("Black")), (("time_period"), Value.str ("2021")),
    (("hiv_prevalence_per_100k"), Value.num (qOfNat 50)),
    (("hiv_prevalence_pct_share"), Value.num (qOfNat 50))]

/-- C8: the aggregate row pinned first is always the pre-augmentation
record (the recomputed allDataUpdated is dead code): in the concrete
run the requested share field is present on the sorted Black row but
still absent on the pinned All row, whose cell formats as the em-dash. -/
theorem C8_deadAgg :
    (∀ (p : TableProps) (ds : List Record) (a : Record),
        p.showAllRow = true →
        findAll (filterPeriod ds p.timeFilter) p.demographicField = some a →
        (tableData p ds).head? = some a)
    ∧ (tableData p8 ds8).head? = some agg8
    ∧ getF agg8 ("hiv_prevalence_pct_share") = none
    ∧ formatValue (getF agg8 ("hiv_prevalence_pct_share")) ("hiv_prevalence_pct_share") = ("—")
    ∧ (tableData p8 ds8)[1]? = some blk8aug
    ∧ getF blk8aug ("hiv_prevalence_pct_share") = some (Value.num (qOfNat 50)) := by
  refine ⟨?_, by decide, by decide, by decide, by decide, by decide⟩
  intro p ds a hshow hfind
  have ht : tableData p ds
      = a :: List.insertionSort (recLe p.demographicField)
          (others
            (augment (metricFieldsArray p) p.demographicField (filterPeriod ds p.timeFilter))
            p.demographicField) := by
    simp only [tableData]
    rw [hshow, hfind]
  rw [ht]
  rfl

/-- C8 witness: the universally quantified head property applied to the
concrete C8 dataset. -/
theorem C8_deadAgg_witness :
    p8.showAllRow = true
    ∧ findAll (filterPeriod ds8 p8.timeFilter) p8.demographicField = some agg8
    ∧ (tableData p8 ds8).head? = some agg8 :=
  ⟨rfl, by decide, C8_deadAgg.1 p8 ds8 agg8 rfl (by decide)⟩

/-- C2 counterexample metric request: a pct-share field other than the
hard-coded one. -/
def mfsC2 : List String := [("hiv_deaths_pct_share")]

/-- The aggregate record for the C2 counterexample. -/
def aggC2 : Record :=
  [(("race_and_ethnicity"), Value.str ("All")), (("hiv_deaths_per_100k"), Value.num (qOfNat 100))]

/-- A record lacking the requested hiv_deaths_pct_share field. -/
def blkC2 : Record :=
  [(("race_and_ethnicity"), Value.str ("Black")), (("hiv_deaths_per_100k"), Value.num (qOfNat 50))]

/-- The C2 counterexample dataset. -/
def dsC2 : List Record := [aggC2, blkC2]

/-- C2: the claim quantifies over every percentage-share field, but the
derivation is hard-coded to hiv_prevalence_pct_share only: requesting
hiv_deaths_pct_share (absent on the record, base metrics 50 and 100)
leaves the dataset entirely unchanged and the field still undefined,
where the claim promises 50 / 100 * 100 = 50. -/
theorem C2_counterexample :
    augmentGate mfsC2 = true
    ∧ augment mfsC2 ("race_and_ethnicity") dsC2 = dsC2
    ∧ getF blkC2 ("hiv_deaths_pct_share") = none
    ∧ qMul (qDiv (qOfNat 50) (qOfNat 100)) (qOfNat 100) = qOfNat 50
    ∧ getF blkC2 ("hiv_deaths_pct_share") ≠ some (Value.num (qOfNat 50)) := by
  decide

/-- C2 (amended): the derivation applies exactly to the field
hiv_prevalence_pct_share.  When it is requested and falsy on a record,
the new value is (base metric / Aggregate base metric) * 100, and 0
when the Aggregate Record is absent or its base metric is zero; the
augmented record replaces the original positionally in the mapped
dataset. -/
theorem C2_revised (mfs : List String) (field : String) (ds : List Record) (row : Record)
    (hreq : mfs.contains ("hiv_prevalence_pct_share") = true)
    (hfalsy : truthyO (getF row ("hiv_prevalence_pct_share")) = false) :
    (∀ (aggr : Record) (d nv : Q),
        findAll ds field = some aggr →
        getF aggr ("hiv_prevalence_per_100k") = some (Value.num d) →
        qLtB q0 d = true →
        getF row ("hiv_prevalence_per_100k") = some (Value.num nv) →
        getF (augmentRow mfs (allPrevOf ds field) row) ("hiv_prevalence_pct_share")
          = some (Value.num (qMul (qDiv nv d) (qOfNat 100))))
    ∧ (findAll ds field = none →
        getF (augmentRow mfs (allPrevOf ds field) row) ("hiv_prevalence_pct_share")
          = some (Value.num q0))
    ∧ (∀ (aggr : Record),
        findAll ds field = some aggr →
        getF aggr ("hiv_prevalence_per_100k") = some (Value.num q0) →
        getF (augmentRow mfs (allPrevOf ds field) row) ("hiv_prevalence_pct_share")
          = some (Value.num q0))
    ∧ (∀ (i : Nat),
        ds[i]? = some row →
        (augment mfs field ds)[i]? = some (augmentRow mfs (allPrevOf ds field) row)) := by
  have hcond : (mfs.contains ("hiv_prevalence_pct_share")
      && !truthyO (getF row ("hiv_prevalence_pct_share"))) = true := by
    rw [hreq, hfalsy]
    rfl
  have hget : ∀ ap : Q,
      getF (augmentRow mfs ap row) ("hiv_prevalence_pct_share")
        = some (pctShareValue ap row) := by
    intro ap
    unfold augmentRow
    rw [getF_popPctStep_ne _ _ _ (by decide)]
    unfold pctShareStep
    rw [if_pos hcond]
    exact getF_setF_self _ _ _
  refine ⟨?_, ?_, ?_, ?_⟩
  · intro aggr d nv hf hb hpos hbase
    rw [hget (allPrevOf ds field)]
    rw [allPrevOf_some hf hb, numOr0_num_of_pos hpos]
    unfold pctShareValue
    rw [if_pos hpos, hbase, numOr0_div_mul]
  · intro hf
    rw [hget (allPrevOf ds field), allPrevOf_none hf]
    unfold pctShareValue
    rw [if_neg (by decide)]
  · intro aggr hf hb
    rw [hget (allPrevOf ds field)]
    rw [allPrevOf_some hf hb, numOr0_num_zero]
    unfold pctShareValue
    rw [if_neg (by decide)]
  · intro i hi
    have hg : augmentGate mfs = true := augmentGate_of_pctShare hreq
    rw [augment_of_gate mfs field ds hg]
    rw [List.getElem?_map, hi]
    rfl

/-- C2 witness aggregate record: base metric 200. -/
def aggW2 : Record :=
  [(("race_and_ethnicity"), Value.str ("All")),
    (("hiv_prevalence_per_100k"), Value.num (qOfNat 200))]

/-- C2 witness record: base metric 50, share field absent. -/
def rowW2 : Record :=
  [(("race_and_ethnicity"), Value.str ("Black")),
    (("hiv_prevalence_per_100k"), Value.num (qOfNat 50))]

/-- The C2 witness dataset. -/
def dsW2 : List Record := [aggW2, rowW2]

/-- The C2 witness request list. -/
def mfsW2 : List String := [("hiv_prevalence_pct_share")]

/-- C2 witness: 50 / 200 * 100 = 25 on a concrete dataset. -/
theorem C2_revised_witness :
    mfsW2.contains ("hiv_prevalence_pct_share") = true
    ∧ truthyO (getF rowW2 ("hiv_prevalence_pct_share")) = false
    ∧ findAll dsW2 ("race_and_ethnicity") = some aggW2
    ∧ getF aggW2 ("hiv_prevalence_per_100k") = some (Value.num (qOfNat 200))
    ∧ qLtB q0 (qOfNat 200) = true
    ∧ getF rowW2 ("hiv_prevalence_per_100k") = some (Value.num (qOfNat 50))
    ∧ getF (augmentRow mfsW2 (allPrevOf dsW2 ("race_and_ethnicity")) rowW2)
        ("hiv_prevalence_pct_share")
        = some (Value.num (qMul (qDiv (qOfNat 50) (qOfNat 200)) (qOfNat 100))) :=
  ⟨by decide, by decide, by decide, by decide, by decide, by decide,
    (C2_revised mfsW2 ("race_and_ethnicity") dsW2 rowW2 (by decide) (by decide)).1
      aggW2 (qOfNat 200) (qOfNat 50) (by decide) (by decide) (by decide) (by decide)⟩

/-- C3: a count field does not always render as a locale-grouped
integer: toLocaleString keeps up to three fractional digits, so the
non-integer value 1234.5 renders as "1,234.5", which is neither of the
integer renderings near it. -/
theorem C3_counterexample :
    formatValue (some (Value.num ⟨2469, 2⟩)) ("x_count") = ("1,234.5")
    ∧ formatValue (some (Value.num ⟨2469, 2⟩)) ("x_count") ≠ ("1,234")
    ∧ formatValue (some (Value.num ⟨2469, 2⟩)) ("x_count") ≠ ("1,235") := by
  decide

/-- C3 (amended): null and undefined format as the em-dash; a numeric
value formats by the ordered field-name rules — one decimal and a
percent sign when the name contains pct or share, the rounded integer
when it contains per_100k (and no pct/share), and toLocaleString
otherwise, which is the locale-grouped integer exactly on integer
inputs; the claim's concrete examples all hold. -/
theorem C3_revised :
    (∀ f : String, formatValue none f = ("—") ∧ formatValue (some Value.vnull) f = ("—"))
    ∧ (∀ (q : Q) (f : String),
        (strContains f ("pct") || strContains f ("share")) = true →
        formatValue (some (Value.num q)) f = jsToFixed1 q ++ ("%"))
    ∧ (∀ (q : Q) (f : String),
        (strContains f ("pct") || strContains f ("share")) = false →
        strContains f ("per_100k") = true →
        formatValue (some (Value.num q)) f = toString (jsRound q))
    ∧ (∀ (q : Q) (f : String),
        (strContains f ("pct") || strContains f ("share")) = false →
        strContains f ("per_100k") = false →
        formatValue (some (Value.num q)) f = jsToLocaleString q)
    ∧ (∀ n : Nat, jsToLocaleString (qOfNat n) = commify (toString n))
    ∧ formatValue (some (Value.num q0)) ("x_pct_share") = ("0.0%")
    ∧ formatValue (some (Value.num (qOfNat 1234))) ("x_per_100k") = ("1234")
    ∧ formatValue (some (Value.num (qOfNat 1234567))) ("x_count") = ("1,234,567") := by
  refine ⟨?_, ?_, ?_, ?_, jsToLocaleString_nat, by decide, by decide, by decide⟩
  · intro f
    exact ⟨rfl, rfl⟩
  · intro q f h
    simp only [formatValue, jsNumber]
    rw [if_pos h]
  · intro q f h1 h2
    simp only [formatValue, jsNumber]
    rw [if_neg (by simp [h1]), if_pos h2]
  · intro q f h1 h2
    simp only [formatValue, jsNumber]
    rw [if_neg (by simp [h1]), if_neg (by simp [h2])]
    split <;> rfl

/-- C3 witness: the hypothesized rules applied at concrete inputs. -/
theorem C3_revised_witness :
    (strContains ("x_pct_share") ("pct") || strContains ("x_pct_share") ("share")) = true
    ∧ formatValue (some (Value.num ⟨247, 20⟩)) ("x_pct_share") = jsToFixed1 ⟨247, 20⟩ ++ ("%")
    ∧ (strContains ("x_per_100k") ("pct") || strContains ("x_per_100k") ("share")) = false
    ∧ strContains ("x_per_100k") ("per_100k") = true
    ∧ formatValue (some (Value.num ⟨247, 20⟩)) ("x_per_100k") = toString (jsRound ⟨247, 20⟩)
    ∧ formatValue (some (Value.num ⟨2469, 2⟩)) ("x_count") = jsToLocaleString ⟨2469, 2⟩ :=
  ⟨by decide, C3_revised.2.1 ⟨247, 20⟩ ("x_pct_share") (by decide),
    by decide, by decide,
    C3_revised.2.2.1 ⟨247, 20⟩ ("x_per_100k") (by decide) (by decide),
    C3_revised.2.2.2.1 ⟨2469, 2⟩ ("x_count") (by decide) (by decide)⟩

/-- C10: the formatter's rules apply in a fixed priority order: any
field whose name contains pct or share formats as a one-decimal
percentage even when it also contains per_100k, and a per_100k field
formats as a rounded rate even when it also contains count; concretely
12.35 on "x_pct_per_100k" renders "12.4%", not "12". -/
theorem C10_priority :
    (∀ (q : Q) (f : String),
        (strContains f ("pct") || strContains f ("share")) = true →
        strContains f ("per_100k") = true →
        formatValue (some (Value.num q)) f = jsToFixed1 q ++ ("%"))
    ∧ (∀ (q : Q) (f : String),
        (strContains f ("pct") || strContains f ("share")) = false →
        strContains f ("per_100k") = true →
        (strContains f ("count") || strContains f ("total")) = true →
        formatValue (some (Value.num q)) f = toString (jsRound q))
    ∧ formatValue (some (Value.num ⟨247, 20⟩)) ("x_pct_per_100k") = ("12.4%")
    ∧ formatValue (some (Value.num ⟨247, 20⟩)) ("x_per_100k_count") = ("12") := by
  refine ⟨?_, ?_, by decide, by decide⟩
  · intro q f h _
    simp only [formatValue, jsNumber]
    rw [if_pos h]
  · intro q f h1 h2 _
    simp only [formatValue, jsNumber]
    rw [if_neg (by simp [h1]), if_pos h2]

/-- C10 witness: the priority rules instantiated on a field containing
both pct and per_100k, and one containing both per_100k and count. -/
theorem C10_priority_witness :
    (strContains ("x_pct_per_100k") ("pct") || strContains ("x_pct_per_100k") ("share")) = true
    ∧ strContains ("x_pct_per_100k") ("per_100k") = true
    ∧ formatValue (some (Value.num ⟨247, 20⟩)) ("x_pct_per_100k")
        = jsToFixed1 ⟨247, 20⟩ ++ ("%")
    ∧ (strContains ("x_per_100k_count") ("pct")
        || strContains ("x_per_100k_count") ("share")) = false
    ∧ strContains ("x_per_100k_count") ("per_100k") = true
    ∧ (strContains ("x_per_100k_count") ("count")
        || strContains ("x_per_100k_count") ("total")) = true
    ∧ formatValue (some (Value.num ⟨247, 20⟩)) ("x_per_100k_count")
        = toString (jsRound ⟨247, 20⟩) :=
  ⟨by decide, by decide,
    C10_priority.1 ⟨247, 20⟩ ("x_pct_per_100k") (by decide) (by decide),
    by decide, by decide, by decide,
    C10_priority.2.1 ⟨247, 20⟩ ("x_per_100k_count") (by decide) (by decide) (by decide)⟩

/-- C4 counterexample chart props. -/
def qC4 : ChartProps :=
  { metricField := "hiv_prevalence_per_100k"
    demographicField := "race_and_ethnicity"
    timeFilter := "2021"
    showAllBar := true }

/-- A successfully fetched, non-empty dataset where no record matches
the 2021 period. -/
def dsC4 : List Record :=
  [[(("race_and_ethnicity"), Value.str ("Black")), (("time_period"), Value.str ("2020")),
      (("hiv_prevalence_per_100k"), Value.num (qOfNat 100))]]

/-- C4: the chart half of the claim fails: on a successful fetch with
zero matching records, HETRateBarChart calls setError and renders the
same error view used for fetch failures, not a dedicated no-data
state. -/
theorem C4_counterexample :
    renderChart qC4 (FetchState.loaded dsC4) = ChartOutcome.errorView ("No data available for 2021")
    ∧ chartIsNoData (renderChart qC4 (FetchState.loaded dsC4)) = false
    ∧ renderChart qC4 (FetchState.failed ("Failed to fetch data"))
        = ChartOutcome.errorView ("Failed to fetch data") := by
  decide

/-- C4 (amended): the table component does enter a dedicated no-data
view — distinct from its error view — whenever zero records match the
period, without rendering a table.  The chart component never has a
no-data view at all: when the fetched dataset is non-empty but zero
records pass its filter, it reports through the very error state it
also uses for fetch failures, distinguished only by the message text;
and when the fetched dataset is entirely empty the render effect
returns early, leaving a blank chart area with no error and no no-data
message. -/
theorem C4_revised :
    (∀ (p : TableProps) (ds : List Record),
        filterPeriod ds p.timeFilter = [] →
        renderTable p (FetchState.loaded ds) = TableOutcome.noData p.timeFilter)
    ∧ (∀ (period msg : String), TableOutcome.noData period ≠ TableOutcome.errorView msg)
    ∧ (∀ (q : ChartProps) (ds : List Record),
        ds ≠ [] →
        chartFilter q ds = [] →
        renderChart q (FetchState.loaded ds)
          = ChartOutcome.errorView (("No data available for ") ++ q.timeFilter))
    ∧ (∀ q : ChartProps, renderChart q (FetchState.loaded []) = ChartOutcome.chart [])
    ∧ (∀ (q : ChartProps) (ds : List Record),
        chartIsNoData (renderChart q (FetchState.loaded ds)) = false) := by
  refine ⟨?_, ?_, ?_, ?_, ?_⟩
  · intro p ds h
    simp [renderTable, h]
  · intro period msg h
    cases h
  · intro q ds h1 h2
    simp [renderChart, h1, h2]
  · intro q
    rfl
  · intro q ds
    simp only [renderChart]
    split
    · rfl
    · split <;> rfl

/-- C4 witness table props. -/
def pC4 : TableProps :=
  { demographicField := "race_and_ethnicity"
    metricFields := "hiv_prevalence_per_100k"
    columnHeaders := "HIV prevalence per 100k people"
    timeFilter := "2021"
    showAllRow := true }

/-- C4 witness: the amended statements applied to the concrete
non-matching dataset and to the entirely empty dataset. -/
theorem C4_revised_witness :
    filterPeriod dsC4 pC4.timeFilter = []
    ∧ renderTable pC4 (FetchState.loaded dsC4) = TableOutcome.noData pC4.timeFilter
    ∧ dsC4 ≠ []
    ∧ chartFilter qC4 dsC4 = []
    ∧ renderChart qC4 (FetchState.loaded dsC4)
        = ChartOutcome.errorView (("No data available for ") ++ qC4.timeFilter)
    ∧ renderChart qC4 (FetchState.loaded []) = ChartOutcome.chart []
    ∧ chartIsNoData (renderChart qC4 (FetchState.loaded dsC4)) = false :=
  ⟨by decide, C4_revised.1 pC4 dsC4 (by decide), by decide, by decide,
    C4_revised.2.2.1 qC4 dsC4 (by decide) (by decide),
    C4_revised.2.2.2.1 qC4,
    C4_revised.2.2.2.2 qC4 dsC4⟩

/-- C5 props: three metric fields, two column labels. -/
def p5 : TableProps :=
  { demographicField := "race_and_ethnicity"
    metricFields := "m1,m2,m3"
    columnHeaders := "H1,H2"
    timeFilter := "2021"
    showAllRow := true }

/-- A matching record for the C5 run. -/
def r5 : Record :=
  [(("race_and_ethnicity"), Value.str ("Black")), (("time_period"), Value.str ("2021")),
    (("m1"), Value.num (qOfNat 1)), (("m2"), Value.num (qOfNat 2)),
    (("m3"), Value.num (qOfNat 3))]

/-- The C5 dataset. -/
def ds5 : List Record := [r5]

/-- C5: the spec requires a configuration-error state when the
metric-field count differs from the column-label count, but the code
performs no such check: with 3 metric fields and 2 labels it renders a
table whose header row has 3 cells (demographic header plus the 2
labels) while every body row carries 3 metric cells — silently
misaligned. -/
theorem C5_code_bug :
    (metricFieldsArray p5).length = 3
    ∧ (columnHeadersArray p5).length = 2
    ∧ isTableView (renderTable p5 (FetchState.loaded ds5)) = true
    ∧ headerCount (renderTable p5 (FetchState.loaded ds5)) = 3
    ∧ rowCellCounts (renderTable p5 (FetchState.loaded ds5)) = [3] := by
  decide

/-- C6 scenario All record, with convention-following field names. -/
def rAllScen : Record :=
  [(("race_and_ethnicity"), Value.str ("All")), (("time_period"), Value.str ("2021")),
    (("hiv_per_100k"), Value.num (qOfNat 100)), (("hiv_count"), Value.num (qOfNat 500)),
    (("population"), Value.num (qOfNat 50000))]

/-- C6 scenario Black record. -/
def rBlackScen : Record :=
  [(("race_and_ethnicity"), Value.str ("Black")), (("time_period"), Value.str ("2021")),
    (("hiv_per_100k"), Value.num (qOfNat 150)), (("hiv_count"), Value.num (qOfNat 75)),
    (("population"), Value.num (qOfNat 5000))]

/-- C6: the annotation is not the bare parenthetical "(count /
population)": the code interpolates descriptive labels and spacing, so
the All row's annotation is " ( 500 Individuals living with HIV /
50,000 Total population )", not "(500 / 50,000)". -/
theorem C6_counterexample :
    getAdditionalInfo rAllScen ("hiv_per_100k")
      = (" ( 500 Individuals living with HIV / 50,000 Total population )")
    ∧ getAdditionalInfo rAllScen ("hiv_per_100k") ≠ ("(500 / 50,000)") := by
  decide

/-- C6 (amended): for a per-100k field with present, non-null sibling
count and population values, the annotation is the labelled
parenthetical with both numbers locale-grouped; it is empty for
non-rate fields and when either sibling is missing or null; a
non-empty annotation suppresses the plain per-100k unit suffix; and the
end-to-end scenario rows format as "100" and "150" with their labelled
annotations. -/
theorem C6_revised :
    (∀ (row : Record) (f : String),
        strContains f ("per_100k") = false → getAdditionalInfo row f = (""))
    ∧ (∀ (row : Record) (f : String) (cv pv : Value),
        strContains f ("per_100k") = true →
        getF row (delFirst f ("_per_100k") ++ ("_count")) = some cv →
        cv ≠ Value.vnull →
        getF row ("population") = some pv →
        pv ≠ Value.vnull →
        getAdditionalInfo row f
          = (" ( ") ++ numToLocale cv ++ (" Individuals living with HIV / ")
            ++ numToLocale pv ++ (" Total population )"))
    ∧ (∀ (row : Record) (f : String),
        strContains f ("per_100k") = true →
        (definedNonNull (getF row (delFirst f ("_per_100k") ++ ("_count"))) = false
          ∨ definedNonNull (getF row ("population")) = false) →
        getAdditionalInfo row f = (""))
    ∧ (∀ (row : Record) (f : String),
        getAdditionalInfo row f ≠ ("") → (mkCell row f).per100kSuffix = false)
    ∧ (mkCell rAllScen ("hiv_per_100k")).text = ("100")
    ∧ (mkCell rAllScen ("hiv_per_100k")).info
        = (" ( 500 Individuals living with HIV / 50,000 Total population )")
    ∧ (mkCell rBlackScen ("hiv_per_100k")).text = ("150")
    ∧ (mkCell rBlackScen ("hiv_per_100k")).info
        = (" ( 75 Individuals living with HIV / 5,000 Total population )") := by
  refine ⟨?_, ?_, ?_, ?_, by decide, by decide, by decide, by decide⟩
  · intro row f h
    simp [getAdditionalInfo, h]
  · intro row f cv pv h hc hcnn hp hpnn
    simp only [getAdditionalInfo, h, Bool.not_true, Bool.false_eq_true, if_false]
    rw [hc, hp]
    rw [if_pos (by rw [definedNonNull_some hcnn, definedNonNull_some hpnn]; rfl)]
    rfl
  · intro row f h hmiss
    simp only [getAdditionalInfo, h, Bool.not_true, Bool.false_eq_true, if_false]
    cases hmiss with
    | inl hm =>
      rw [if_neg (by rw [hm]; simp)]
    | inr hm =>
      rw [if_neg (by rw [hm]; simp)]
  · intro row f h
    have hb : (getAdditionalInfo row f = ("") : Bool) = false := by
      simp [h]
    simp [mkCell, hb]

/-- C6 witness: the labelled-annotation rule and suffix suppression
applied to the scenario All record. -/
theorem C6_revised_witness :
    strContains ("hiv_per_100k") ("per_100k") = true
    ∧ getF rAllScen (delFirst ("hiv_per_100k") ("_per_100k") ++ ("_count"))
        = some (Value.num (qOfNat 500))
    ∧ getF rAllScen ("population") = some (Value.num (qOfNat 50000))
    ∧ getAdditionalInfo rAllScen ("hiv_per_100k")
        = (" ( ") ++ numToLocale (Value.num (qOfNat 500)) ++ (" Individuals living with HIV / ")
          ++ numToLocale (Value.num (qOfNat 50000)) ++ (" Total population )")
    ∧ getAdditionalInfo rAllScen ("hiv_per_100k") ≠ ("")
    ∧ (mkCell rAllScen ("hiv_per_100k")).per100kSuffix = false :=
  ⟨by decide, by decide, by decide,
    C6_revised.2.1 rAllScen ("hiv_per_100k") (Value.num (qOfNat 500)) (Value.num (qOfNat 50000))
      (by decide) (by decide) (by decide) (by decide) (by decide),
    by decide,
    C6_revised.2.2.2.1 rAllScen ("hiv_per_100k") (by decide)⟩

/-- C7: the derived-field augmentation is idempotent and copy-on-write:
running it twice equals running it once, it preserves the number and
order of records, and each output record agrees with its input record
on every field other than the two derived ones. -/
theorem C7_augment :
    ∀ (mfs : List String) (field : String) (ds : List Record),
      augment mfs field (augment mfs field ds) = augment mfs field ds
      ∧ (augment mfs field ds).length = ds.length
      ∧ (∀ (i : Nat) (row : Record),
          ds[i]? = some row →
          ∀ k : String, k ≠ ("hiv_prevalence_pct_share") → k ≠ ("population_pct") →
            ∃ row', (augment mfs field ds)[i]? = some row' ∧ getF row' k = getF row k) := by
  intro mfs field ds
  refine ⟨augment_augment mfs field ds, ?_, ?_⟩
  · unfold augment
    split
    · exact List.length_map _ _
    · rfl
  · intro i row hi k hk1 hk2
    by_cases hg : augmentGate mfs = true
    · refine ⟨augmentRow mfs (allPrevOf ds field) row, ?_, ?_⟩
      · rw [augment_of_gate mfs field ds hg, List.getElem?_map, hi]
        rfl
      · exact getF_augmentRow_ne _ _ _ hk1 hk2
    · have hg' : augmentGate mfs = false := Bool.eq_false_iff.2 hg
      refine ⟨row, ?_, rfl⟩
      unfold augment
      rw [hg']
      simpa using hi

/-- The C7 witness request list. -/
def mfsW7 : List String := [("hiv_prevalence_pct_share"), ("population_pct")]

/-- The C7 witness dataset (the C8 fixtures reused structurally). -/
def dsW7 : List Record :=
  [[(("race_and_ethnicity"), Value.str ("All")),
      (("hiv_prevalence_per_100k"), Value.num (qOfNat 100))],
    [(("race_and_ethnicity"), Value.str ("Black")),
      (("hiv_prevalence_per_100k"), Value.num (qOfNat 50))]]

/-- The first C7 witness record. -/
def rowW7 : Record :=
  [(("race_and_ethnicity"), Value.str ("All")),
    (("hiv_prevalence_per_100k"), Value.num (qOfNat 100))]

/-- C7 witness: idempotence and field preservation evaluated on a
concrete dataset with both derived fields requested. -/
theorem C7_augment_witness :
    augment mfsW7 ("race_and_ethnicity") (augment mfsW7 ("race_and_ethnicity") dsW7)
      = augment mfsW7 ("race_and_ethnicity") dsW7
    ∧ dsW7[0]? = some rowW7
    ∧ (("race_and_ethnicity") : String) ≠ ("hiv_prevalence_pct_share")
    ∧ (∃ row', (augment mfsW7 ("race_and_ethnicity") dsW7)[0]? = some row'
        ∧ getF row' ("race_and_ethnicity") = getF rowW7 ("race_and_ethnicity")) :=
  ⟨(C7_augment mfsW7 ("race_and_ethnicity") dsW7).1, by decide, by decide,
    (C7_augment mfsW7 ("race_and_ethnicity") dsW7).2.2 0 rowW7 (by decide)
      ("race_and_ethnicity") (by decide) (by decide)⟩

/-- First C9 payload. -/
def dsU1 : List Record := [[(("x"), Value.num (qOfNat 1))]]

/-- Second C9 payload. -/
def dsU2 : List Record := [[(("x"), Value.num (qOfNat 2))]]

/-- C9: the fetch effect installs no staleness guard, so responses
apply in arrival order regardless of their URL: when the URL changes
from u1 to u2 mid-flight and u1's response arrives after u2's, the
displayed data is u1's stale payload, not the latest request's result;
the step function provably ignores the URL of a resolution. -/
theorem C9_code_bug :
    (runEvents initState
        [FetchEvent.effectRun ("u1"), FetchEvent.effectRun ("u2"),
          FetchEvent.arriveOk ("u2") dsU2, FetchEvent.arriveOk ("u1") dsU1]).data = some dsU1
    ∧ dsU1 ≠ dsU2
    ∧ (∀ (s : CompState) (u u' : String) (ds : List Record),
        stepEvent s (FetchEvent.arriveOk u ds) = stepEvent s (FetchEvent.arriveOk u' ds)) := by
  exact ⟨by decide, by decide, fun s u u' ds => rfl⟩

end HET
